import Mathlib

/-!
Tessera core — a shallow embedding of the cryptographic document lifecycle
engine (GF(256) Shamir secret sharing, AES-256-GCM envelope handling,
positional marker builder, reconstruction rendering, and the key-rotation /
destruction lifecycle), together with proofs settling the specification
claims C1–C10.

Buffers are modelled as `List Nat` of byte values; JavaScript `number` is
modelled as `Nat` (all relevant values are non-negative integers);
`string | null` fields are `Option String`.  Nondeterministic inputs of the
source (random bytes, random IVs, freshly generated UUIDs) are threaded as
explicit parameters.
-/

namespace Tessera

/-- Byte strings (Node `Buffer`) are lists of byte values. -/
abbrev Bytes := List Nat

/-! ## GF(256) tables and arithmetic (src/unnamed/part_012, Shamir module)

The source builds `EXP_TABLE` and `LOG_TABLE` by iterating
`x = x << 1; if (x & 0x100) x ^= 0x11B` 255 times from `x = 1`
(`initTables`).  `buildTables` below is the direct translation; the literal
tables `EXP_TABLE` / `LOG_TABLE` are proved equal to it in
`buildTables_eq_tables` and are what the arithmetic uses (so that concrete
evaluation does not re-run the generator loop). -/

/-- One step of the table generator: `x = x << 1; if (x & 0x100) x ^= 0x11B`. -/
def gfStep (x : Nat) : Nat :=
  let y := x <<< 1
  if y &&& 0x100 ≠ 0 then y ^^^ 0x11B else y

/-- Direct translation of `initTables`: 255 iterations writing `EXP_TABLE[i] = x`
and `LOG_TABLE[x] = i`, then `EXP_TABLE[255] = EXP_TABLE[0]`. -/
def buildTables : List Nat × List Nat :=
  let st := (List.range 255).foldl
    (fun (st : List Nat × List Nat × Nat) (i : Nat) =>
      (st.1.set i st.2.2, st.2.1.set st.2.2 i, gfStep st.2.2))
    (List.replicate 256 0, List.replicate 256 0, 1)
  (st.1.set 255 (st.1.getD 0 0), st.2.1)

/-- The exponent table the source's `initTables` produces (see
`buildTables_eq_tables`).  Because `x = 2` has multiplicative order 51 in
GF(256) with reducing polynomial 0x11B, the 255 entries cycle through only
51 distinct values. -/
def EXP_TABLE : List Nat :=
  [1, 2, 4, 8, 16, 32, 64, 128, 27, 54, 108, 216, 171, 77, 154, 47, 94, 188, 99, 198, 151, 53, 106, 212, 179, 125, 250, 239, 197, 145, 57, 114, 228, 211, 189, 97, 194, 159, 37, 74, 148, 51, 102, 204, 131, 29, 58, 116, 232, 203, 141, 1, 2, 4, 8, 16, 32, 64, 128, 27, 54, 108, 216, 171, 77, 154, 47, 94, 188, 99, 198, 151, 53, 106, 212, 179, 125, 250, 239, 197, 145, 57, 114, 228, 211, 189, 97, 194, 159, 37, 74, 148, 51, 102, 204, 131, 29, 58, 116, 232, 203, 141, 1, 2, 4, 8, 16, 32, 64, 128, 27, 54, 108, 216, 171, 77, 154, 47, 94, 188, 99, 198, 151, 53, 106, 212, 179, 125, 250, 239, 197, 145, 57, 114, 228, 211, 189, 97, 194, 159, 37, 74, 148, 51, 102, 204, 131, 29, 58, 116, 232, 203, 141, 1, 2, 4, 8, 16, 32, 64, 128, 27, 54, 108, 216, 171, 77, 154, 47, 94, 188, 99, 198, 151, 53, 106, 212, 179, 125, 250, 239, 197, 145, 57, 114, 228, 211, 189, 97, 194, 159, 37, 74, 148, 51, 102, 204, 131, 29, 58, 116, 232, 203, 141, 1, 2, 4, 8, 16, 32, 64, 128, 27, 54, 108, 216, 171, 77, 154, 47, 94, 188, 99, 198, 151, 53, 106, 212, 179, 125, 250, 239, 197, 145, 57, 114, 228, 211, 189, 97, 194, 159, 37, 74, 148, 51, 102, 204, 131, 29, 58, 116, 232, 203, 141, 1]

/-- The log table the source's `initTables` produces (see
`buildTables_eq_tables`).  Entries for bytes that are not powers of 2 in the
field were never written and remain 0, so `LOG_TABLE` is not a left inverse
of `EXP_TABLE`. -/
def LOG_TABLE : List Nat :=
  [0, 204, 205, 0, 206, 0, 0, 0, 207, 0, 0, 0, 0, 0, 0, 0, 208, 0, 0, 0, 0, 0, 0, 0, 0, 0, 0, 212, 0, 249, 0, 0, 209, 0, 0, 0, 0, 242, 0, 0, 0, 0, 0, 0, 0, 0, 0, 219, 0, 0, 0, 245, 0, 225, 213, 0, 0, 234, 250, 0, 0, 0, 0, 0, 210, 0, 0, 0, 0, 0, 0, 0, 0, 0, 243, 0, 0, 217, 0, 0, 0, 0, 0, 0, 0, 0, 0, 0, 0, 0, 0, 0, 0, 0, 220, 0, 0, 239, 0, 222, 0, 0, 246, 0, 0, 0, 226, 0, 214, 0, 0, 0, 0, 0, 235, 0, 251, 0, 0, 0, 0, 0, 0, 0, 0, 229, 0, 0, 211, 0, 0, 248, 0, 0, 0, 0, 0, 0, 0, 0, 0, 254, 0, 0, 0, 233, 0, 0, 244, 0, 0, 224, 0, 0, 218, 0, 0, 0, 0, 241, 0, 0, 0, 0, 0, 0, 0, 0, 0, 0, 0, 216, 0, 0, 0, 0, 0, 0, 0, 228, 0, 0, 0, 0, 0, 0, 0, 0, 221, 238, 0, 0, 0, 0, 240, 0, 0, 232, 223, 0, 0, 0, 0, 253, 247, 0, 0, 0, 0, 0, 0, 237, 227, 0, 0, 0, 215, 0, 0, 0, 0, 0, 0, 0, 0, 0, 0, 0, 236, 0, 0, 0, 252, 0, 0, 0, 0, 0, 0, 231, 0, 0, 0, 0, 0, 0, 0, 0, 0, 0, 230, 0, 0, 0, 0, 0]

/-- `gfAdd`: addition in GF(2^8) is XOR. -/
def gfAdd (a b : Nat) : Nat := a ^^^ b

/-- `gfMul` from the source: 0 if either operand is 0, otherwise
`EXP_TABLE[(LOG_TABLE[a] + LOG_TABLE[b]) % 255]`. -/
def gfMul (a b : Nat) : Nat :=
  if a = 0 ∨ b = 0 then 0
  else EXP_TABLE.getD ((LOG_TABLE.getD a 0 + LOG_TABLE.getD b 0) % 255) 0

/-- `gfDiv` from the source: throws on division by zero, 0 for a zero
numerator, otherwise `EXP_TABLE[(LOG_TABLE[a] - LOG_TABLE[b] + 255) % 255]`.
JavaScript subtraction cannot underflow here because the operands are below
255, so `LOG_TABLE[a] + 255 - LOG_TABLE[b]` computes the same value in `Nat`. -/
def gfDiv (a b : Nat) : Except String Nat :=
  if b = 0 then .error "Division by zero in GF(256)"
  else if a = 0 then .ok 0
  else .ok (EXP_TABLE.getD ((LOG_TABLE.getD a 0 + 255 - LOG_TABLE.getD b 0) % 255) 0)

/-- Horner evaluation of a polynomial at `x`: the source iterates the
coefficient array from the highest index down, so it is a right fold with
the constant coefficient applied last. -/
def evalPoly (coefficients : List Nat) (x : Nat) : Nat :=
  coefficients.foldr (fun c result => gfAdd (gfMul result x) c) 0

/-- A Shamir share: 1-based index used as the x-coordinate, and data the same
length as the secret. -/
structure Share where
  index : Nat
  data : Bytes
deriving DecidableEq, Repr

/-- The numerator/denominator accumulation of `lagrangeInterpolate`'s inner
loop: for point `i`, multiply `numerator` by every other `x_j` and
`denominator` by every `gfAdd x_i x_j`. -/
def lagNumDen (points : List (Nat × Nat)) (i : Nat) : List Nat → Nat × Nat → Nat × Nat
  | [], nd => nd
  | j :: rest, nd =>
    if i = j then lagNumDen points i rest nd
    else
      lagNumDen points i rest
        (gfMul nd.1 (points.getD j (0, 0)).1,
         gfMul nd.2 (gfAdd (points.getD i (0, 0)).1 (points.getD j (0, 0)).1))

/-- The outer loop of `lagrangeInterpolate`: accumulate
`gfAdd secret (gfMul y_i (gfDiv num den))` over the point indices, with the
division error propagating like the source's thrown exception. -/
def lagrangeSum (points : List (Nat × Nat)) : List Nat → Nat → Except String Nat
  | [], secret => .ok secret
  | i :: rest, secret => do
    let nd := lagNumDen points i (List.range points.length) (1, 1)
    let q ← gfDiv nd.1 nd.2
    lagrangeSum points rest (gfAdd secret (gfMul (points.getD i (0, 0)).2 q))

/-- Lagrange interpolation at `x = 0` over the given `(x, y)` points,
translated from `lagrangeInterpolate`. -/
def lagrangeInterpolate (points : List (Nat × Nat)) : Except String Nat :=
  lagrangeSum points (List.range points.length) 0

/-- Split a secret into `totalShares` shares with threshold `threshold`,
translated from `splitSecret`.  The source draws `threshold - 1` random
bytes per secret byte from a CSPRNG; that randomness is threaded as `rand`,
where `rand byteIdx` supplies the random coefficient bytes for byte
position `byteIdx`. -/
def splitSecret (secret : Bytes) (threshold totalShares : Nat)
    (rand : Nat → List Nat) : Except String (List Share) :=
  if threshold < 2 then .error "Threshold must be at least 2"
  else if totalShares < threshold then .error "Total shares must be >= threshold"
  else if totalShares > 254 then .error "Maximum 254 shares (GF(256) constraint)"
  else if secret.length = 0 then .error "Secret cannot be empty"
  else
    .ok ((List.range totalShares).map (fun k =>
      { index := k + 1
        data := (List.range secret.length).map (fun byteIdx =>
          evalPoly (secret.getD byteIdx 0 :: (rand byteIdx).take (threshold - 1)) (k + 1)) }))

/-- Per-byte interpolation loop of `reconstructSecret` over the byte
positions in order. -/
def interpolateAll (shares : List Share) : List Nat → Except String Bytes
  | [] => .ok []
  | byteIdx :: rest => do
    let y ← lagrangeInterpolate (shares.map (fun s => (s.index, s.data.getD byteIdx 0)))
    let ys ← interpolateAll shares rest
    pure (y :: ys)

/-- Reconstruct a secret from shares, translated from `reconstructSecret`.
The guards mirror the source: fewer than 2 shares, a share whose data length
differs from `secretLength`, and duplicate indices (the source compares the
size of a `Set` of indices with the share count, which `List.dedup` mirrors).
The source's error messages interpolate the offending values; the embedding
uses the fixed message text. -/
def reconstructSecret (shares : List Share) (secretLength : Nat) : Except String Bytes :=
  if shares.length < 2 then .error "Need at least 2 shares to reconstruct"
  else if shares.any (fun s => s.data.length ≠ secretLength) then
    .error "Share has length different from expected"
  else if ((shares.map Share.index).dedup).length ≠ shares.length then
    .error "Duplicate share indices detected"
  else interpolateAll shares (List.range secretLength)

/-- Decidable equality for `Except` results, used to evaluate the embedded
operations at concrete inputs. -/
instance instDecEqExcept {ε α : Type} [DecidableEq ε] [DecidableEq α] :
    DecidableEq (Except ε α) := fun a b =>
  match a, b with
  | .ok x, .ok y =>
    if h : x = y then .isTrue (by rw [h]) else .isFalse (by intro hc; cases hc; exact h rfl)
  | .error x, .error y =>
    if h : x = y then .isTrue (by rw [h]) else .isFalse (by intro hc; cases hc; exact h rfl)
  | .ok _, .error _ => .isFalse (by intro hc; cases hc)
  | .error _, .ok _ => .isFalse (by intro hc; cases hc)

/-! ## AES-256-GCM envelope layer (src/unnamed/part_012, encryption module)

The envelope plumbing (`encryptContentSet`, `decryptContentSet`,
`reEncryptContentSet`) is translated from the source.  The two primitives it
calls live in Node's `crypto` library, outside this repository, and are
modelled from the spec:

* SHA-512 (`sha512`) — modelled from the spec: "SHA-512. Used universally
  for integrity" — as an ideal collision-free digest: the digest value is an
  injective tag of the hashed data.
* AES-256-GCM (`gcmDecrypt` together with the ciphertext/tag construction
  in `encryptContentSet`) — modelled from the spec: authenticated
  encryption whose decryption succeeds exactly when key, IV, AAD,
  ciphertext and authentication tag are the ones an encryption produced,
  and then returns that encryption's plaintext.

The base64 transport encoding of iv/tag/ciphertext and the interpolated
parts of error messages are elided; byte strings are carried directly. -/

/-- A symbolic AES-256-GCM ciphertext: the encryption parameters that
produced it.  Decryption recovers `pt` exactly when key, IV and AAD match. -/
structure GcmCipher where
  key : Bytes
  iv : Bytes
  aad : String
  pt : String
deriving DecidableEq

/-- A symbolic 128-bit GCM authentication tag: it authenticates the key, IV,
AAD and plaintext of the encryption that produced it. -/
structure GcmTag where
  key : Bytes
  iv : Bytes
  aad : String
  pt : String
deriving DecidableEq

/-- Data over which the source computes SHA-512 digests: UTF-8 strings,
plain byte buffers, and GCM ciphertexts. -/
inductive HashInput where
  | str (s : String)
  | bytes (b : Bytes)
  | cipher (c : GcmCipher)
deriving DecidableEq

/-- A SHA-512 digest, modelled as an injective tag of the hashed data. -/
structure Digest where
  input : HashInput
deriving DecidableEq

/-- Modelled from the spec: SHA-512 as an ideal (collision-free) digest. -/
def sha512 (data : HashInput) : Digest := ⟨data⟩

/-- Modelled from the spec: AES-256-GCM decryption — succeeds iff the
ciphertext was produced under the same key, IV and AAD and the tag is the
one that encryption computed; then returns that encryption's plaintext. -/
def gcmDecrypt (key iv : Bytes) (aad : String) (ct : GcmCipher) (tag : GcmTag) :
    Option String :=
  if ct.key = key ∧ ct.iv = iv ∧ ct.aad = aad ∧ tag = ⟨key, iv, aad, ct.pt⟩
  then some ct.pt else none

/-- Encrypted content set envelope (src/unnamed/part_015), with byte fields
carried directly rather than base64-encoded. -/
structure EncryptedEnvelope where
  contentSetIdentifier : String
  iv : Bytes
  authTag : GcmTag
  ciphertext : GcmCipher
  plaintextHash : Digest
  ciphertextHash : Digest
  keyId : String
  algorithm : String
  encryptedAt : String
deriving DecidableEq

/-- Decrypted content set (src/unnamed/part_015). -/
structure DecryptedContentSet where
  contentSetIdentifier : String
  plaintext : String
  verified : Bool
  verificationHash : Digest
deriving DecidableEq

/-- The invalid-key-length error thrown by both encrypt and decrypt. -/
def invalidKeyMsg : String := "AES-256 requires a 32-byte key"

/-- Step-1 error of `decryptContentSet` (ciphertext hash mismatch). -/
def ciphertextIntegrityMsg : String :=
  "Ciphertext integrity failure: hash mismatch. Content may have been tampered with."

/-- Step-2 error of `decryptContentSet` (GCM authentication failure). -/
def aeadAuthMsg : String :=
  "GCM authentication failure: ciphertext or authentication tag has been tampered with."

/-- Step-3 error of `decryptContentSet` (plaintext hash mismatch). -/
def plaintextIntegrityMsg : String :=
  "Plaintext integrity failure: decrypted content hash does not match original."

/-- Translated from `encryptContentSet`: key-length check, fresh random IV
(threaded as the `iv` parameter), plaintext hash before encryption, GCM
encryption with the content set identifier as AAD, ciphertext hash after.
The `encryptedAt` timestamp is elided as the empty string. -/
def encryptContentSet (plaintext : String) (key : Bytes) (keyId contentSetIdentifier : String)
    (iv : Bytes) : Except String EncryptedEnvelope :=
  if key.length ≠ 32 then .error invalidKeyMsg
  else
    let plaintextHash := sha512 (.str plaintext)
    let encrypted : GcmCipher := ⟨key, iv, contentSetIdentifier, plaintext⟩
    let authTag : GcmTag := ⟨key, iv, contentSetIdentifier, plaintext⟩
    let ciphertextHash := sha512 (.cipher encrypted)
    .ok { contentSetIdentifier := contentSetIdentifier, iv := iv, authTag := authTag,
          ciphertext := encrypted, plaintextHash := plaintextHash,
          ciphertextHash := ciphertextHash, keyId := keyId,
          algorithm := "aes-256-gcm", encryptedAt := "" }

/-- Translated from `decryptContentSet`: key-length check, then
(1) ciphertext hash verification, (2) GCM decryption with the envelope's
IV, tag, and the content set identifier as AAD, (3) plaintext hash
verification; each failure throws its own error. -/
def decryptContentSet (envelope : EncryptedEnvelope) (key : Bytes) :
    Except String DecryptedContentSet :=
  if key.length ≠ 32 then .error invalidKeyMsg
  else if sha512 (.cipher envelope.ciphertext) ≠ envelope.ciphertextHash then
    .error ciphertextIntegrityMsg
  else
    match gcmDecrypt key envelope.iv envelope.contentSetIdentifier
        envelope.ciphertext envelope.authTag with
    | none => .error aeadAuthMsg
    | some plaintext =>
      let computedPlaintextHash := sha512 (.str plaintext)
      let verified := decide (computedPlaintextHash = envelope.plaintextHash)
      if verified = false then .error plaintextIntegrityMsg
      else .ok { contentSetIdentifier := envelope.contentSetIdentifier,
                 plaintext := plaintext, verified := verified,
                 verificationHash := computedPlaintextHash }

/-- Translated from `reEncryptContentSet`: decrypt with the old key (all
three checks), re-encrypt with the new key under the same content set
identifier.  The fresh random IV of the re-encryption is threaded as
`newIv`. -/
def reEncryptContentSet (envelope : EncryptedEnvelope) (oldKey newKey : Bytes)
    (newKeyId : String) (newIv : Bytes) : Except String EncryptedEnvelope := do
  let decrypted ← decryptContentSet envelope oldKey
  encryptContentSet decrypted.plaintext newKey newKeyId envelope.contentSetIdentifier newIv

/-! ## Marker builder and base document (src/unnamed/part_011, deconstruction)

The marker-building loop of `executeDeconstruction` (the `for` over the
sorted assignment rows) is translated as a fold.  The source keys its
`processedPositions` map by the string
`` `${block_id}:${start_offset ?? 'full'}:${end_offset ?? 'full'}` ``;
since the offset segments are numerals or `full` and so never contain a
colon, that key is in bijection with the triple
`(block_id, start_offset, end_offset)`, which the embedding uses directly.
Fresh marker UUIDs are threaded as `uuid`, indexed by the creation counter
(the marker's sequence position). -/

/-- One approved content-set assignment row (nullable offsets and text as in
the `content_set_assignments` schema).  The list fed to the builder is the
source's sorted `allAssignments`. -/
structure Assignment where
  contentSetIdentifier : String
  blockId : String
  startOffset : Option Nat
  endOffset : Option Nat
  selectedText : Option String
  pageNumber : Nat
deriving DecidableEq

/-- Positional marker (src/unnamed/part_015); the optional `mergedFrom`
field is never set by the source and is elided. -/
structure PositionalMarker where
  markerId : String
  contentSetMembership : List String
  blockId : String
  startOffset : Option Nat
  endOffset : Option Nat
  contentHash : Digest
  isMerged : Bool
  sequencePosition : Nat
deriving DecidableEq

/-- A default marker, used with `List.getD` in index-based statements. -/
def defaultMarker : PositionalMarker :=
  { markerId := "", contentSetMembership := [], blockId := "",
    startOffset := none, endOffset := none,
    contentHash := sha512 (.str ""), isMerged := false, sequencePosition := 0 }

/-- The positional key of an assignment (the source's `posKey` string). -/
def posKey (a : Assignment) : String × Option Nat × Option Nat :=
  (a.blockId, a.startOffset, a.endOffset)

/-- The positional key of a marker. -/
def markerPos (m : PositionalMarker) : String × Option Nat × Option Nat :=
  (m.blockId, m.startOffset, m.endOffset)

/-- One record of a content set's payload (the source serializes it as one
JSON line per assignment; the JSON encoding is elided). -/
structure PayloadEntry where
  markerId : String
  blockId : String
  startOffset : Option Nat
  endOffset : Option Nat
  content : Option String
  pageNumber : Nat
deriving DecidableEq

/-- Append an entry to one content set's payload buffer. -/
def appendPayload (ps : List (String × List PayloadEntry)) (setId : String)
    (e : PayloadEntry) : List (String × List PayloadEntry) :=
  if ps.any (fun p => p.1 = setId) then
    ps.map (fun p => if p.1 = setId then (p.1, p.2 ++ [e]) else p)
  else ps ++ [(setId, [e])]

/-- State of the marker-building loop: markers in creation order, per-set
payload buffers, and the sequence-position counter. -/
structure BuildState where
  markers : List PositionalMarker
  payloads : List (String × List PayloadEntry)
  seq : Nat
deriving DecidableEq

/-- The fresh marker created for a new extraction point: next sequence
position, fresh UUID (indexed by that position), the assignment's single
content set, and the SHA-512 of the selected text (`null` hashed as the
empty string). -/
def newMarker (uuid : Nat → String) (st : BuildState) (a : Assignment) : PositionalMarker :=
  { markerId := uuid (st.seq + 1), contentSetMembership := [a.contentSetIdentifier],
    blockId := a.blockId, startOffset := a.startOffset, endOffset := a.endOffset,
    contentHash := sha512 (.str (a.selectedText.getD "")), isMerged := false,
    sequencePosition := st.seq + 1 }

/-- The merge update applied to each marker when an assignment's positional
key already has a marker: append the content set identifier if new and set
`isMerged` (the source mutates the marker object held in its
`processedPositions` map; the map over the marker list applies the same
update, and only the marker at the assignment's position is changed). -/
def mergeUpd (a : Assignment) (m : PositionalMarker) : PositionalMarker :=
  if markerPos m = posKey a then
    if a.contentSetIdentifier ∈ m.contentSetMembership then m
    else { m with
           contentSetMembership := m.contentSetMembership ++ [a.contentSetIdentifier]
           isMerged := true }
  else m

/-- One iteration of the marker-building loop: merge into an existing marker
at the same positional key, or create a fresh marker with the next sequence
position and the SHA-512 of the selected text (`null` hashed as the empty
string); then append the payload record for the assignment's content set,
using the marker id at the assignment's position. -/
def buildStep (uuid : Nat → String) (st : BuildState) (a : Assignment) : BuildState :=
  match st.markers.find? (fun m => markerPos m = posKey a) with
  | some existing =>
    let entry : PayloadEntry :=
      ⟨existing.markerId, a.blockId, a.startOffset, a.endOffset, a.selectedText, a.pageNumber⟩
    { markers := st.markers.map (mergeUpd a),
      payloads := appendPayload st.payloads a.contentSetIdentifier entry,
      seq := st.seq }
  | none =>
    let m := newMarker uuid st a
    let entry : PayloadEntry :=
      ⟨m.markerId, a.blockId, a.startOffset, a.endOffset, a.selectedText, a.pageNumber⟩
    { markers := st.markers ++ [m],
      payloads := appendPayload st.payloads a.contentSetIdentifier entry,
      seq := st.seq + 1 }

/-- The marker-building loop over the (sorted) assignment list. -/
def buildMarkers (uuid : Nat → String) (assignments : List Assignment) : BuildState :=
  assignments.foldl (buildStep uuid) ⟨[], [], 0⟩

/-- Append a content-set identifier to a membership list if not already
present (the source's guarded `push`). -/
def insertIfNew (l : List String) (c : String) : List String :=
  if c ∈ l then l else l ++ [c]

/-- The per-marker projection serialized into the base document: exactly
`marker_id`, `block_id`, `start_offset`, `end_offset`, `sequence_position`. -/
structure BaseMarkerView where
  markerId : String
  blockId : String
  startOffset : Option Nat
  endOffset : Option Nat
  sequencePosition : Nat
deriving DecidableEq

/-- The serialized base document structure (`baseDocContent` in the source;
the JSON string rendering is elided, the serialized record is modelled). -/
structure BaseDoc where
  documentId : String
  markers : List BaseMarkerView
  markerCount : Nat
deriving DecidableEq

/-- The source's per-marker serialization map. -/
def baseMarkerView (m : PositionalMarker) : BaseMarkerView :=
  ⟨m.markerId, m.blockId, m.startOffset, m.endOffset, m.sequencePosition⟩

/-- The base document built by `executeDeconstruction` from the marker
list. -/
def baseDocContent (documentId : String) (markers : List PositionalMarker) : BaseDoc :=
  { documentId := documentId, markers := markers.map baseMarkerView,
    markerCount := markers.length }

/-! ## Reconstruction rendering (src/unnamed/part_011, reconstruction)

The step-5 assembly loop of `reconstructDocument` is translated as a pure
function of the marker list, the authorized content-set identifiers, the
decrypted-payload map built in step 4 (`decryptedContent`: one entry per
authorized set whose envelope decrypted and verified), and the tenant's
marker width. -/

/-- The Unicode block character U+2588 used for redaction. -/
def blockChar : Char := '█'

/-- Translated from `makeRedactionMarker`: the block character repeated
`Math.max(3, Math.min(10, width))` times. -/
def makeRedactionMarker (width : Nat) : String :=
  ⟨List.replicate (max 3 (min 10 width)) blockChar⟩

/-- The width drawn from the security profile row: the source's
`profileResult.rows[0]?.marker_width || 3`, where a missing row and the
falsy width 0 both fall back to 3. -/
def effectiveMarkerWidth (profileWidth : Option Nat) : Nat :=
  match profileWidth with
  | none => 3
  | some w => if w = 0 then 3 else w

/-- Lookup of a marker's entry in one decrypted payload (the source's
`Map` built with `set`, so a duplicate marker id keeps the last write). -/
def payloadLookup (entries : List PayloadEntry) (markerId : String) :
    Option PayloadEntry :=
  (entries.filter (fun e => e.markerId = markerId)).getLast?

/-- The per-marker scan over `contentSetMembership` (step 5): at the first
authorized, decrypted set whose payload has an entry for this marker, take
its content and check `SHA-512(content || '')` against the marker's
`content_hash`; on a match stop (even when the content is `null`), on a
mismatch reset and continue with the next set.  Returns the final
`(content, accessedViaSet)` pair of the loop. -/
def scanSets (m : PositionalMarker) (authorizedSets : List String)
    (decrypted : List (String × List PayloadEntry)) :
    List String → Option String × Option String
  | [] => (none, none)
  | setId :: rest =>
    if setId ∈ authorizedSets ∧ (decrypted.lookup setId).isSome then
      match payloadLookup ((decrypted.lookup setId).getD []) m.markerId with
      | some entry =>
        if sha512 (.str (entry.content.getD "")) = m.contentHash
        then (entry.content, some setId)
        else scanSets m authorizedSets decrypted rest
      | none => scanSets m authorizedSets decrypted rest
    else scanSets m authorizedSets decrypted rest

/-- One rendered block of the reconstructed view. -/
structure ReconstructedBlock where
  markerId : String
  blockId : String
  content : String
  isRedacted : Bool
  accessedViaSet : Option String
deriving DecidableEq

/-- A default block, used with `List.getD` in index-based statements. -/
def defaultBlock : ReconstructedBlock :=
  { markerId := "", blockId := "", content := "", isRedacted := false,
    accessedViaSet := none }

/-- The step-5 assembly loop: for each marker in order, either its decrypted
content or the uniform redaction marker. -/
def reconstructBlocks (markers : List PositionalMarker) (authorizedSets : List String)
    (decrypted : List (String × List PayloadEntry)) (markerWidth : Nat) :
    List ReconstructedBlock :=
  markers.map (fun m =>
    let scanned := scanSets m authorizedSets decrypted m.contentSetMembership
    { markerId := m.markerId, blockId := m.blockId,
      content := scanned.1.getD (makeRedactionMarker markerWidth),
      isRedacted := scanned.1.isNone,
      accessedViaSet := scanned.2 })

/-- The visibility condition exactly as claim C1 states it, for one content
set: the set is authorized, present in the decrypted map, its payload
contains the marker's id, and the SHA-512 of that entry's content equals
the marker's `content_hash`. -/
def setEligible (m : PositionalMarker) (authorizedSets : List String)
    (decrypted : List (String × List PayloadEntry)) (setId : String) : Bool :=
  decide (setId ∈ authorizedSets) &&
    (match decrypted.lookup setId with
     | none => false
     | some entries =>
       match payloadLookup entries m.markerId with
       | none => false
       | some entry => decide (sha512 (.str (entry.content.getD "")) = m.contentHash))

/-- Claim C1's visibility condition: some identifier of the marker's
membership is an eligible set. -/
def visibleCond (m : PositionalMarker) (authorizedSets : List String)
    (decrypted : List (String × List PayloadEntry)) : Prop :=
  ∃ setId ∈ m.contentSetMembership, setEligible m authorizedSets decrypted setId = true

/-- The visibility condition is decidable (a bounded search over the
membership list), so it can be evaluated at concrete inputs. -/
instance instDecVisibleCond (m : PositionalMarker) (authorizedSets : List String)
    (decrypted : List (String × List PayloadEntry)) :
    Decidable (visibleCond m authorizedSets decrypted) :=
  inferInstanceAs (Decidable (∃ setId ∈ m.contentSetMembership,
    setEligible m authorizedSets decrypted setId = true))

/-- The amended claim's visibility condition, following its words: the scan
stops at the first identifier in `content_set_membership` satisfying the
claim's per-set condition (`setEligible`: authorized, decrypted-verified,
payload contains the marker's id, hash matches), and the marker is visible
exactly when that set's entry has non-null content.  A null-content entry
(its hash is SHA-512 of the empty string) stops the scan and redacts; an
empty-string entry is non-null and stays visible. -/
def visibleCondFirstMatch (m : PositionalMarker) (authorizedSets : List String)
    (decrypted : List (String × List PayloadEntry)) : Bool :=
  match m.contentSetMembership.find?
      (fun setId => setEligible m authorizedSets decrypted setId) with
  | none => false
  | some setId =>
    match payloadLookup ((decrypted.lookup setId).getD []) m.markerId with
    | none => false
    | some entry => entry.content.isSome

/-! ## Lifecycle: key rotation and destruction
(src/src/routes/content/crypto.ts, src/src/services/retention/index.ts)

The database state relevant to the two operations is modelled as one
record: the document row's status / legal-hold flag, whether the effective
retention date is still in the future, the stored encrypted content sets,
the sets that currently have an `is_active` encryption key, and whether the
base document row exists. -/

/-- Document lifecycle status values (spec §4.9 and the `documents.status`
column). -/
inductive DocStatus where
  | intake | intakeFlagged | intakeCleared | markup | markupSubmitted
  | review | reviewEscalated | approved | deconstructing | active
  | destroying | destroyed
deriving DecidableEq

/-- The slice of database state read and written by key rotation and
destruction, for one document. -/
structure LifecycleDb where
  status : DocStatus
  legalHold : Bool
  retentionNotMet : Bool
  encryptedSets : List String
  activeKeySets : List String
  baseDocPresent : Bool
deriving DecidableEq

/-- Translated from `executeDestruction` (src/src/services/retention):
reject when the status is already `destroying` or `destroyed`, on an active
legal hold, without regulatory clearance, or before the effective retention
date; otherwise transition through `destroying`, delete all encrypted
content sets, the base document and the key shares, deactivate every key,
and finish at `destroyed`.  No check that the status is `active` exists.
The document-not-found case and the audit/anchor emissions are elided. -/
def executeDestruction (db : LifecycleDb) (regulatoryClearance : Bool) :
    Except String LifecycleDb :=
  if db.status = .destroyed ∨ db.status = .destroying then
    .error "Document is already destroyed or destroying"
  else if db.legalHold then .error "Cannot destroy: document has active legal hold"
  else if regulatoryClearance = false then
    .error "Regulatory clearance confirmation required"
  else if db.retentionNotMet then .error "Cannot destroy: retention period not met"
  else
    .ok { db with
          status := .destroyed
          encryptedSets := []
          activeKeySets := []
          baseDocPresent := false }

/-- Translated from the key-rotation route (src/src/routes/content/crypto):
select the encrypted content sets joined with their active keys; with none,
commit without changes and fail; otherwise re-encrypt each set under a
fresh key, deactivating the old key and activating the new one (the set of
identifiers with an active key is unchanged).  The route never reads the
document's status.  Returns the rotated set identifiers. -/
def rotateKeys (db : LifecycleDb) : Except String (LifecycleDb × List String) :=
  let sets := db.encryptedSets.filter (fun s => s ∈ db.activeKeySets)
  if sets.isEmpty then .error "No active encrypted content sets found"
  else .ok (db, sets)

/-- Invariant of the marker-building loop relating the state to the already
processed assignment prefix: positional keys are unique among markers,
markers and assignments cover each other's positions, each marker's
membership is the deduplicated (first-occurrence-order) list of content set
identifiers assigned at its position, `isMerged` tracks membership size,
and sequence positions are exactly `1..n` in creation order. -/
def BuilderInv (pre : List Assignment) (st : BuildState) : Prop :=
  st.markers.Pairwise (fun m1 m2 => markerPos m1 ≠ markerPos m2) ∧
  (∀ a ∈ pre, ∃ m ∈ st.markers, markerPos m = posKey a) ∧
  (∀ m ∈ st.markers, ∃ a ∈ pre, posKey a = markerPos m) ∧
  (∀ m ∈ st.markers, m.contentSetMembership =
    ((pre.filter (fun a => posKey a = markerPos m)).map
      (fun a => a.contentSetIdentifier)).foldl insertIfNew []) ∧
  (∀ m ∈ st.markers, m.isMerged = decide (2 ≤ m.contentSetMembership.length)) ∧
  st.markers.map (fun m => m.sequencePosition) = List.range' 1 st.markers.length ∧
  st.seq = st.markers.length

/-! ## Theorems -/

set_option maxRecDepth 100000

/-- The literal tables are exactly what the source's `initTables` loop
produces. -/
theorem buildTables_eq_tables : buildTables = (EXP_TABLE, LOG_TABLE) := by decide

/-- Every entry of the exponent table is nonzero (each is a power of 2 in
the field). -/
theorem expTable_getD_ne_zero : ∀ m, m < 256 → EXP_TABLE.getD m 0 ≠ 0 := by decide

/-- `gfMul` of two nonzero bytes is nonzero: the result is always an
`EXP_TABLE` entry. -/
theorem gfMul_ne_zero {a b : Nat} (ha : a ≠ 0) (hb : b ≠ 0) : gfMul a b ≠ 0 := by
  unfold gfMul
  rw [if_neg (by push_neg; exact ⟨ha, hb⟩)]
  exact expTable_getD_ne_zero _
    (lt_trans (Nat.mod_lt _ (by norm_num)) (by norm_num))

/-- XOR of distinct values is nonzero. -/
theorem gfAdd_ne_zero {a b : Nat} (h : a ≠ b) : gfAdd a b ≠ 0 :=
  fun hc => h (Nat.xor_eq_zero.mp hc)

/-- `gfDiv` succeeds whenever the divisor is nonzero. -/
theorem gfDiv_isOk (a : Nat) {b : Nat} (hb : b ≠ 0) : ∃ q, gfDiv a b = .ok q := by
  unfold gfDiv
  rw [if_neg hb]
  by_cases ha : a = 0 <;> simp [ha]

/-- The denominator accumulated by `lagNumDen` stays nonzero when every
contributing `gfAdd x_i x_j` factor is nonzero. -/
theorem lagNumDen_ne_zero (points : List (Nat × Nat)) (i : Nat) (js : List Nat)
    (nd : Nat × Nat) (hnd : nd.2 ≠ 0)
    (h : ∀ j ∈ js, i ≠ j →
      gfAdd (points.getD i (0, 0)).1 (points.getD j (0, 0)).1 ≠ 0) :
    (lagNumDen points i js nd).2 ≠ 0 := by
  induction js generalizing nd with
  | nil => exact hnd
  | cons j rest ih =>
    simp only [lagNumDen]
    by_cases hij : i = j
    · rw [if_pos hij]
      exact ih nd hnd (fun j' hj' => h j' (List.mem_cons_of_mem _ hj'))
    · rw [if_neg hij]
      exact ih _ (gfMul_ne_zero hnd (h j (List.mem_cons_self _ _) hij))
        (fun j' hj' => h j' (List.mem_cons_of_mem _ hj'))

/-- The Lagrange accumulation loop succeeds when every point's denominator
is nonzero. -/
theorem lagrangeSum_ok (points : List (Nat × Nat)) (js : List Nat) (acc : Nat)
    (h : ∀ i ∈ js, (lagNumDen points i (List.range points.length) (1, 1)).2 ≠ 0) :
    ∃ v, lagrangeSum points js acc = .ok v := by
  induction js generalizing acc with
  | nil => exact ⟨acc, rfl⟩
  | cons i rest ih =>
    obtain ⟨q, hq⟩ := gfDiv_isOk
      (lagNumDen points i (List.range points.length) (1, 1)).1
      (h i (List.mem_cons_self _ _))
    obtain ⟨v, hv⟩ := ih (gfAdd acc (gfMul (points.getD i (0, 0)).2 q))
      (fun j hj => h j (List.mem_cons_of_mem _ hj))
    refine ⟨v, ?_⟩
    simp only [lagrangeSum, hq, Except.bind]
    exact hv

/-- Lagrange interpolation succeeds whenever the x-coordinates are pairwise
distinct. -/
theorem lagrangeInterpolate_ok (points : List (Nat × Nat))
    (hnd : (points.map Prod.fst).Nodup) : ∃ v, lagrangeInterpolate points = .ok v := by
  apply lagrangeSum_ok
  intro i hi
  have hi' : i < points.length := List.mem_range.mp hi
  apply lagNumDen_ne_zero _ _ _ _ one_ne_zero
  intro j hj hij
  have hj' : j < points.length := List.mem_range.mp hj
  apply gfAdd_ne_zero
  rw [List.getD_eq_getElem _ _ hi', List.getD_eq_getElem _ _ hj']
  have hpair := List.pairwise_iff_getElem.mp hnd
  have hlen : (points.map Prod.fst).length = points.length := List.length_map _ _
  rcases Nat.lt_or_ge i j with hlt | hge
  · have := hpair i j (by omega) (by omega) hlt
    simp only [List.getElem_map] at this
    exact this
  · have hlt : j < i := by omega
    have := hpair j i (by omega) (by omega) hlt
    simp only [List.getElem_map] at this
    exact this.symm

/-- The per-byte interpolation loop succeeds (with one output byte per
position) when each byte position's interpolation succeeds. -/
theorem interpolateAll_ok (shares : List Share) (js : List Nat)
    (h : ∀ b ∈ js, ∃ y,
      lagrangeInterpolate (shares.map fun s => (s.index, s.data.getD b 0)) = .ok y) :
    ∃ out, interpolateAll shares js = .ok out ∧ out.length = js.length := by
  induction js with
  | nil => exact ⟨[], rfl, rfl⟩
  | cons b rest ih =>
    obtain ⟨y, hy⟩ := h b (List.mem_cons_self _ _)
    obtain ⟨out, hout, hlen⟩ := ih (fun b' hb' => h b' (List.mem_cons_of_mem _ hb'))
    refine ⟨y :: out, ?_, by simp [hlen]⟩
    simp only [interpolateAll, hy, hout, Except.bind]
    rfl

/-- C2: the claim asserts that reconstructing from any M-element subset of
the shares of `splitSecret` returns the secret exactly.  The code violates
this: its exp/log tables are built by repeated multiplication by `x = 2`,
which has multiplicative order 51 modulo the reducing polynomial 0x11B, so
`LOG_TABLE` is not an inverse of `EXP_TABLE` and `gfMul` is not field
multiplication (`gfMul 1 3 = 1`).  Concretely, splitting the one-byte
secret `[1]` with `M = 2, N = 3` and zero random coefficients yields the
three shares `(1,[1]), (2,[1]), (3,[1])`, and reconstructing from the
2-element subset `{1, 2}` returns `[3]`, not the secret `[1]`. -/
theorem tessera_C2_code_bug :
    splitSecret [1] 2 3 (fun _ => [0]) =
      .ok [⟨1, [1]⟩, ⟨2, [1]⟩, ⟨3, [1]⟩] ∧
    reconstructSecret [⟨1, [1]⟩, ⟨2, [1]⟩] 1 = .ok [3] ∧
    ([3] : Bytes) ≠ [1] ∧
    gfMul 1 3 = 1 := by decide

/-- C3 counterexample: the claim asserts that reconstructing from fewer than
M distinct shares fails with an insufficient-shares error, in particular for
the two shares with indices 2 and 4 of a 32-byte secret split with
`M = 3, N = 5`.  In fact `reconstructSecret` never learns M: splitting the
32-byte all-ones secret with `M = 3, N = 5` (zero random coefficients) gives
five shares of all-ones data, and reconstructing from the two shares with
indices 2 and 4 returns a value (`.ok`, the all-6 buffer — a silently
incorrect secret) rather than failing. -/
theorem tessera_C3_counterexample :
    splitSecret (List.replicate 32 1) 3 5 (fun _ => [0, 0]) =
      .ok [⟨1, List.replicate 32 1⟩, ⟨2, List.replicate 32 1⟩,
           ⟨3, List.replicate 32 1⟩, ⟨4, List.replicate 32 1⟩,
           ⟨5, List.replicate 32 1⟩] ∧
    reconstructSecret [⟨2, List.replicate 32 1⟩, ⟨4, List.replicate 32 1⟩] 32 =
      .ok (List.replicate 32 6) ∧
    List.replicate 32 (6 : Nat) ≠ List.replicate 32 1 := by decide

/-- C3 (amended): `reconstructSecret` enforces only a minimum of two shares
(it has no threshold parameter).  With fewer than 2 shares it fails with the
need-at-least-2-shares error; with at least 2 shares of the expected length
and pairwise distinct indices it returns a reconstructed value of the
expected length — even when the number of shares is below the threshold M
used by the split, in which case the returned secret is in general
incorrect. -/
theorem tessera_C3_amended (shares : List Share) (secretLength : Nat) :
    (shares.length < 2 →
      reconstructSecret shares secretLength = .error "Need at least 2 shares to reconstruct") ∧
    (2 ≤ shares.length →
      (∀ s ∈ shares, s.data.length = secretLength) →
      (shares.map Share.index).Nodup →
      ∃ v, reconstructSecret shares secretLength = .ok v ∧ v.length = secretLength) := by
  constructor
  · intro h
    unfold reconstructSecret
    rw [if_pos h]
  · intro h2 hlen hnodup
    unfold reconstructSecret
    rw [if_neg (by omega)]
    rw [if_neg (by simp only [List.any_eq_true, not_exists, not_and, decide_eq_true_eq,
          ne_eq, Decidable.not_not]; intro s hs; exact hlen s hs)]
    rw [if_neg (by rw [List.dedup_eq_self.mpr hnodup]; simp)]
    obtain ⟨out, hout, hlenout⟩ := interpolateAll_ok shares (List.range secretLength)
      (fun b _ => lagrangeInterpolate_ok _ (by
        rw [List.map_map]
        simpa [Function.comp_def] using hnodup))
    exact ⟨out, hout, by simpa using hlenout⟩

/-- C3 witness: a concrete application of the amended theorem — two distinct
one-byte shares reconstruct to a value of length 1. -/
theorem tessera_C3_witness :
    ∃ v, reconstructSecret [⟨1, [5]⟩, ⟨2, [7]⟩] 1 = .ok v ∧ v.length = 1 :=
  (tessera_C3_amended [⟨1, [5]⟩, ⟨2, [7]⟩] 1).2 (by decide) (by decide) (by decide)

/-- Inversion of a successful `decryptContentSet`: all three checks passed,
the ciphertext was produced under this key/IV/AAD, and the result carries
the recovered plaintext with `verified = true`. -/
theorem decryptContentSet_ok_inv (envelope : EncryptedEnvelope) (key : Bytes)
    (r : DecryptedContentSet) (h : decryptContentSet envelope key = .ok r) :
    key.length = 32 ∧
    sha512 (.cipher envelope.ciphertext) = envelope.ciphertextHash ∧
    envelope.ciphertext.key = key ∧
    envelope.ciphertext.iv = envelope.iv ∧
    envelope.ciphertext.aad = envelope.contentSetIdentifier ∧
    envelope.authTag = ⟨key, envelope.iv, envelope.contentSetIdentifier,
      envelope.ciphertext.pt⟩ ∧
    sha512 (.str envelope.ciphertext.pt) = envelope.plaintextHash ∧
    r = { contentSetIdentifier := envelope.contentSetIdentifier,
          plaintext := envelope.ciphertext.pt, verified := true,
          verificationHash := sha512 (.str envelope.ciphertext.pt) } := by
  unfold decryptContentSet at h
  by_cases h32 : key.length ≠ 32
  · rw [if_pos h32] at h; cases h
  · rw [if_neg h32] at h
    by_cases hct : sha512 (.cipher envelope.ciphertext) ≠ envelope.ciphertextHash
    · rw [if_pos hct] at h; cases h
    · rw [if_neg hct] at h
      cases hg : gcmDecrypt key envelope.iv envelope.contentSetIdentifier
          envelope.ciphertext envelope.authTag with
      | none => rw [hg] at h; cases h
      | some pt =>
        rw [hg] at h
        dsimp only at h
        unfold gcmDecrypt at hg
        by_cases hcond : envelope.ciphertext.key = key ∧
            envelope.ciphertext.iv = envelope.iv ∧
            envelope.ciphertext.aad = envelope.contentSetIdentifier ∧
            envelope.authTag = ⟨key, envelope.iv, envelope.contentSetIdentifier,
              envelope.ciphertext.pt⟩
        · rw [if_pos hcond] at hg
          injection hg with hpt
          subst hpt
          by_cases hv : sha512 (.str envelope.ciphertext.pt) = envelope.plaintextHash
          · rw [if_neg (by simp [decide_eq_true hv])] at h
            injection h with hr
            refine ⟨by omega, not_not.mp hct, hcond.1, hcond.2.1, hcond.2.2.1,
              hcond.2.2.2, hv, ?_⟩
            rw [← hr]
            simp [hv]
          · rw [if_pos (decide_eq_false hv)] at h
            cases h
        · rw [if_neg hcond] at hg; cases hg

/-- Decrypting a freshly produced envelope with the encryption key recovers
the plaintext with `verified = true` (round-trip helper). -/
theorem decrypt_encrypt_roundtrip (p : String) (key : Bytes) (keyId csid : String)
    (iv : Bytes) (env : EncryptedEnvelope) (h32 : key.length = 32)
    (henc : encryptContentSet p key keyId csid iv = .ok env) :
    decryptContentSet env key =
      .ok { contentSetIdentifier := csid, plaintext := p, verified := true,
            verificationHash := sha512 (.str p) } := by
  unfold encryptContentSet at henc
  rw [if_neg (by omega)] at henc
  injection henc with henv
  subst henv
  unfold decryptContentSet
  rw [if_neg (by omega)]
  rw [if_neg (by simp)]
  have hg : gcmDecrypt key iv csid ⟨key, iv, csid, p⟩ ⟨key, iv, csid, p⟩ = some p := by
    unfold gcmDecrypt
    rw [if_pos ⟨rfl, rfl, rfl, rfl⟩]
  simp only [hg]
  simp

/-- C4: `decryptContentSet` performs its checks in order — (1) SHA-512 of
the ciphertext against `ciphertextHash`, (2) GCM decryption with the
envelope's IV, tag, and the content set identifier as AAD, (3) SHA-512 of
the recovered plaintext against `plaintextHash` — failing with a distinct
error at the first failing check; consequently an otherwise-intact envelope
produced under one content set identifier but claiming a different one
fails at step (2) with the AEAD-authentication error. -/
theorem tessera_C4 (env : EncryptedEnvelope) (key : Bytes) (h32 : key.length = 32) :
    (sha512 (.cipher env.ciphertext) ≠ env.ciphertextHash →
      decryptContentSet env key = .error ciphertextIntegrityMsg) ∧
    (sha512 (.cipher env.ciphertext) = env.ciphertextHash →
      gcmDecrypt key env.iv env.contentSetIdentifier env.ciphertext env.authTag = none →
      decryptContentSet env key = .error aeadAuthMsg) ∧
    (∀ pt, sha512 (.cipher env.ciphertext) = env.ciphertextHash →
      gcmDecrypt key env.iv env.contentSetIdentifier env.ciphertext env.authTag = some pt →
      sha512 (.str pt) ≠ env.plaintextHash →
      decryptContentSet env key = .error plaintextIntegrityMsg) ∧
    (ciphertextIntegrityMsg ≠ aeadAuthMsg ∧ aeadAuthMsg ≠ plaintextIntegrityMsg ∧
      ciphertextIntegrityMsg ≠ plaintextIntegrityMsg) ∧
    (∀ p keyId csid1 csid2 iv env1, csid1 ≠ csid2 →
      encryptContentSet p key keyId csid1 iv = .ok env1 →
      decryptContentSet { env1 with contentSetIdentifier := csid2 } key =
        .error aeadAuthMsg) := by
  refine ⟨?_, ?_, ?_, by decide, ?_⟩
  · intro hne
    unfold decryptContentSet
    rw [if_neg (by omega), if_pos hne]
  · intro heq hgcm
    unfold decryptContentSet
    rw [if_neg (by omega), if_neg (by simp [heq])]
    simp only [hgcm]
  · intro pt heq hgcm hne
    unfold decryptContentSet
    rw [if_neg (by omega), if_neg (by simp [heq])]
    simp only [hgcm]
    simp [hne]
  · intro p keyId csid1 csid2 iv env1 hcsid henc
    unfold encryptContentSet at henc
    rw [if_neg (by omega)] at henc
    injection henc with henv
    subst henv
    unfold decryptContentSet
    rw [if_neg (by omega)]
    rw [if_neg (by simp)]
    have hg : gcmDecrypt key iv csid2 ⟨key, iv, csid1, p⟩ ⟨key, iv, csid1, p⟩ = none := by
      unfold gcmDecrypt
      rw [if_neg (by intro hc; exact hcsid (hc.2.2.1))]
    simp only [hg]

/-- C4 witness: a concrete envelope whose stored ciphertext hash does not
match its ciphertext fails with the ciphertext-integrity error. -/
theorem tessera_C4_witness :
    decryptContentSet
      { contentSetIdentifier := "CS-A", iv := List.replicate 12 0,
        authTag := ⟨List.replicate 32 0, List.replicate 12 0, "CS-A", "hello"⟩,
        ciphertext := ⟨List.replicate 32 0, List.replicate 12 0, "CS-A", "hello"⟩,
        plaintextHash := sha512 (.str "hello"),
        ciphertextHash := sha512 (.bytes []), keyId := "key-1",
        algorithm := "aes-256-gcm", encryptedAt := "" }
      (List.replicate 32 0) = .error ciphertextIntegrityMsg :=
  (tessera_C4
    { contentSetIdentifier := "CS-A", iv := List.replicate 12 0,
      authTag := ⟨List.replicate 32 0, List.replicate 12 0, "CS-A", "hello"⟩,
      ciphertext := ⟨List.replicate 32 0, List.replicate 12 0, "CS-A", "hello"⟩,
      plaintextHash := sha512 (.str "hello"),
      ciphertextHash := sha512 (.bytes []), keyId := "key-1",
      algorithm := "aes-256-gcm", encryptedAt := "" }
    (List.replicate 32 0) (by decide)).1 (by decide)

/-- C5: encrypting then decrypting with the same 32-byte key returns the
plaintext with `verified = true`; encrypting with a key that is not 32
bytes fails with the invalid-key-length error. -/
theorem tessera_C5 (p : String) (key : Bytes) (keyId csid : String) (iv : Bytes) :
    (key.length = 32 →
      ∃ env, encryptContentSet p key keyId csid iv = .ok env ∧
        decryptContentSet env key =
          .ok { contentSetIdentifier := csid, plaintext := p, verified := true,
                verificationHash := sha512 (.str p) }) ∧
    (key.length ≠ 32 →
      encryptContentSet p key keyId csid iv = .error invalidKeyMsg) := by
  constructor
  · intro h32
    have henc : encryptContentSet p key keyId csid iv =
        .ok { contentSetIdentifier := csid, iv := iv,
              authTag := ⟨key, iv, csid, p⟩, ciphertext := ⟨key, iv, csid, p⟩,
              plaintextHash := sha512 (.str p),
              ciphertextHash := sha512 (.cipher ⟨key, iv, csid, p⟩),
              keyId := keyId, algorithm := "aes-256-gcm", encryptedAt := "" } := by
      unfold encryptContentSet
      rw [if_neg (by omega)]
    exact ⟨_, henc, decrypt_encrypt_roundtrip p key keyId csid iv _ h32 henc⟩
  · intro hne
    unfold encryptContentSet
    rw [if_pos hne]

/-- C5 witness: a concrete round trip with the all-zero 32-byte key. -/
theorem tessera_C5_witness :
    ∃ env, encryptContentSet "hello" (List.replicate 32 0) "key-1" "CS-A"
        (List.replicate 12 0) = .ok env ∧
      decryptContentSet env (List.replicate 32 0) =
        .ok { contentSetIdentifier := "CS-A", plaintext := "hello", verified := true,
              verificationHash := sha512 (.str "hello") } :=
  (tessera_C5 "hello" (List.replicate 32 0) "key-1" "CS-A" (List.replicate 12 0)).1
    (by decide)

/-- C6: re-encrypting an envelope that decrypts correctly under the old key
yields an envelope for the same content set whose `plaintextHash` is
unchanged, whose IV and ciphertext are new (the fresh IV differs from the
old one), and which decrypts under the new key to the original plaintext. -/
theorem tessera_C6 (env : EncryptedEnvelope) (oldKey newKey : Bytes)
    (newKeyId : String) (newIv : Bytes) (d : DecryptedContentSet)
    (hdec : decryptContentSet env oldKey = .ok d)
    (h32 : newKey.length = 32) (hiv : newIv ≠ env.iv) :
    ∃ env2, reEncryptContentSet env oldKey newKey newKeyId newIv = .ok env2 ∧
      env2.contentSetIdentifier = env.contentSetIdentifier ∧
      env2.plaintextHash = env.plaintextHash ∧
      env2.iv ≠ env.iv ∧
      env2.ciphertext ≠ env.ciphertext ∧
      decryptContentSet env2 newKey =
        .ok { contentSetIdentifier := env.contentSetIdentifier,
              plaintext := d.plaintext, verified := true,
              verificationHash := sha512 (.str d.plaintext) } := by
  obtain ⟨_, _, _, hctiv, _, _, hpth, hr⟩ := decryptContentSet_ok_inv env oldKey d hdec
  have henc : encryptContentSet d.plaintext newKey newKeyId env.contentSetIdentifier newIv =
      .ok { contentSetIdentifier := env.contentSetIdentifier, iv := newIv,
            authTag := ⟨newKey, newIv, env.contentSetIdentifier, d.plaintext⟩,
            ciphertext := ⟨newKey, newIv, env.contentSetIdentifier, d.plaintext⟩,
            plaintextHash := sha512 (.str d.plaintext),
            ciphertextHash := sha512 (.cipher
              ⟨newKey, newIv, env.contentSetIdentifier, d.plaintext⟩),
            keyId := newKeyId, algorithm := "aes-256-gcm", encryptedAt := "" } := by
    unfold encryptContentSet
    rw [if_neg (by omega)]
  have hre : reEncryptContentSet env oldKey newKey newKeyId newIv =
      encryptContentSet d.plaintext newKey newKeyId env.contentSetIdentifier newIv := by
    unfold reEncryptContentSet
    rw [hdec]
    rfl
  rw [henc] at hre
  refine ⟨_, hre, rfl, ?_, hiv, ?_, ?_⟩
  · show sha512 (.str d.plaintext) = env.plaintextHash
    rw [hr]
    exact hpth
  · show (⟨newKey, newIv, env.contentSetIdentifier, d.plaintext⟩ : GcmCipher) ≠
      env.ciphertext
    intro hc
    exact hiv (by rw [← hctiv, ← hc])
  · exact decrypt_encrypt_roundtrip d.plaintext newKey newKeyId
      env.contentSetIdentifier newIv _ h32 henc

/-- C6 witness: a concrete re-encryption of a concretely built envelope,
rotating from the all-zero key to the all-one key with a fresh IV. -/
theorem tessera_C6_witness :
    ∃ env2, reEncryptContentSet
        { contentSetIdentifier := "CS-A", iv := List.replicate 12 0,
          authTag := ⟨List.replicate 32 0, List.replicate 12 0, "CS-A", "p"⟩,
          ciphertext := ⟨List.replicate 32 0, List.replicate 12 0, "CS-A", "p"⟩,
          plaintextHash := sha512 (.str "p"),
          ciphertextHash := sha512 (.cipher
            ⟨List.replicate 32 0, List.replicate 12 0, "CS-A", "p"⟩),
          keyId := "key-1", algorithm := "aes-256-gcm", encryptedAt := "" }
        (List.replicate 32 0) (List.replicate 32 1) "key-2" (List.replicate 12 1) =
        .ok env2 ∧
      env2.contentSetIdentifier = "CS-A" ∧
      env2.plaintextHash = sha512 (.str "p") ∧
      env2.iv ≠ List.replicate 12 0 ∧
      env2.ciphertext ≠ ⟨List.replicate 32 0, List.replicate 12 0, "CS-A", "p"⟩ ∧
      decryptContentSet env2 (List.replicate 32 1) =
        .ok { contentSetIdentifier := "CS-A", plaintext := "p", verified := true,
              verificationHash := sha512 (.str "p") } :=
  tessera_C6
    { contentSetIdentifier := "CS-A", iv := List.replicate 12 0,
      authTag := ⟨List.replicate 32 0, List.replicate 12 0, "CS-A", "p"⟩,
      ciphertext := ⟨List.replicate 32 0, List.replicate 12 0, "CS-A", "p"⟩,
      plaintextHash := sha512 (.str "p"),
      ciphertextHash := sha512 (.cipher
        ⟨List.replicate 32 0, List.replicate 12 0, "CS-A", "p"⟩),
      keyId := "key-1", algorithm := "aes-256-gcm", encryptedAt := "" }
    (List.replicate 32 0) (List.replicate 32 1) "key-2" (List.replicate 12 1)
    ⟨"CS-A", "p", true, sha512 (.str "p")⟩ (by decide) (by decide) (by decide)

/-- C10: whenever `decryptContentSet` returns normally, the result has
`verified = true` and its `verificationHash` equals the envelope's
`plaintextHash`; no input yields a result with `verified = false`. -/
theorem tessera_C10 (env : EncryptedEnvelope) (key : Bytes) (r : DecryptedContentSet)
    (h : decryptContentSet env key = .ok r) :
    r.verified = true ∧ r.verificationHash = env.plaintextHash := by
  obtain ⟨_, _, _, _, _, _, hpth, hr⟩ := decryptContentSet_ok_inv env key r h
  rw [hr]
  exact ⟨rfl, hpth⟩

/-- C10 witness: the concrete decryption of a concretely built envelope has
`verified = true` and the envelope's plaintext hash as verification hash. -/
theorem tessera_C10_witness :
    (⟨"CS-B", "q", true, sha512 (.str "q")⟩ : DecryptedContentSet).verified = true ∧
    (⟨"CS-B", "q", true, sha512 (.str "q")⟩ : DecryptedContentSet).verificationHash =
      EncryptedEnvelope.plaintextHash
        { contentSetIdentifier := "CS-B", iv := List.replicate 12 2,
          authTag := ⟨List.replicate 32 2, List.replicate 12 2, "CS-B", "q"⟩,
          ciphertext := ⟨List.replicate 32 2, List.replicate 12 2, "CS-B", "q"⟩,
          plaintextHash := sha512 (.str "q"),
          ciphertextHash := sha512 (.cipher
            ⟨List.replicate 32 2, List.replicate 12 2, "CS-B", "q"⟩),
          keyId := "key-3", algorithm := "aes-256-gcm", encryptedAt := "" } :=
  tessera_C10
    { contentSetIdentifier := "CS-B", iv := List.replicate 12 2,
      authTag := ⟨List.replicate 32 2, List.replicate 12 2, "CS-B", "q"⟩,
      ciphertext := ⟨List.replicate 32 2, List.replicate 12 2, "CS-B", "q"⟩,
      plaintextHash := sha512 (.str "q"),
      ciphertextHash := sha512 (.cipher
        ⟨List.replicate 32 2, List.replicate 12 2, "CS-B", "q"⟩),
      keyId := "key-3", algorithm := "aes-256-gcm", encryptedAt := "" }
    (List.replicate 32 2) ⟨"CS-B", "q", true, sha512 (.str "q")⟩ (by decide)

/-- C8: the serialized base document lists, per marker, exactly the five
fields `marker_id, block_id, start_offset, end_offset, sequence_position`,
and is invariant under any change to a marker's content-set membership,
content hash, or merge flag — so it reveals nothing about the extracted
content's presence, length, type, or nature. -/
theorem tessera_C8 (documentId : String) (markers : List PositionalMarker)
    (f : PositionalMarker → PositionalMarker)
    (hf : ∀ m, (f m).markerId = m.markerId ∧ (f m).blockId = m.blockId ∧
      (f m).startOffset = m.startOffset ∧ (f m).endOffset = m.endOffset ∧
      (f m).sequencePosition = m.sequencePosition) :
    (baseDocContent documentId markers).markers =
      markers.map (fun m =>
        ⟨m.markerId, m.blockId, m.startOffset, m.endOffset, m.sequencePosition⟩) ∧
    baseDocContent documentId (markers.map f) = baseDocContent documentId markers := by
  refine ⟨rfl, ?_⟩
  unfold baseDocContent
  simp only [List.map_map, List.length_map]
  have : markers.map (baseMarkerView ∘ f) = markers.map baseMarkerView := by
    apply List.map_congr_left
    intro m _
    obtain ⟨h1, h2, h3, h4, h5⟩ := hf m
    simp [baseMarkerView, Function.comp, h1, h2, h3, h4, h5]
  rw [this]

/-- C8 witness: blanking a marker's membership, replacing its content hash,
and flipping its merge flag leaves the serialized base document unchanged. -/
theorem tessera_C8_witness :
    baseDocContent "doc-1"
      ([(⟨"m1", ["CS-A"], "b1", some 0, some 5, sha512 (.str "secret content"),
         false, 1⟩ : PositionalMarker)].map (fun m =>
        { m with
          contentSetMembership := []
          contentHash := sha512 (.str "")
          isMerged := true })) =
    baseDocContent "doc-1"
      [⟨"m1", ["CS-A"], "b1", some 0, some 5, sha512 (.str "secret content"),
        false, 1⟩] :=
  (tessera_C8 "doc-1"
    [(⟨"m1", ["CS-A"], "b1", some 0, some 5, sha512 (.str "secret content"),
      false, 1⟩ : PositionalMarker)]
    (fun m =>
      { m with
        contentSetMembership := []
        contentHash := sha512 (.str "")
        isMerged := true })
    (fun _ => ⟨rfl, rfl, rfl, rfl, rfl⟩)).2

/-- C9 counterexample: the claim says destroying a document whose status is
`approved` must fail with an invalid-state-transition error.  In fact
`executeDestruction` rejects only the statuses `destroying` and `destroyed`
(plus legal hold, missing clearance, unmet retention), so an `approved`
document with regulatory clearance is destroyed successfully. -/
theorem tessera_C9_counterexample :
    executeDestruction
      { status := .approved, legalHold := false, retentionNotMet := false,
        encryptedSets := ["CS-A"], activeKeySets := ["CS-A"], baseDocPresent := true }
      true =
    .ok { status := .destroyed, legalHold := false, retentionNotMet := false,
          encryptedSets := [], activeKeySets := [], baseDocPresent := false } := by
  decide

/-- C9 (amended): destruction is rejected exactly when the status is already
`destroying`/`destroyed`, a legal hold is active, regulatory clearance is
missing, or the retention date is unmet — the document status is otherwise
not inspected, so destruction proceeds from `approved` (or any other
non-terminal status) to `destroyed`, deleting the content sets, base
document and active keys.  Key rotation checks only that at least one
encrypted content set with an active key exists (it never reads the
document status): with none it fails with no state change; otherwise it
rotates exactly those sets and leaves the modelled state (status, stored
sets, active-key sets) unchanged. -/
theorem tessera_C9_amended (db : LifecycleDb) (rc : Bool) :
    (db.status = .approved → db.legalHold = false → rc = true →
      db.retentionNotMet = false →
      executeDestruction db rc =
        .ok { db with
              status := .destroyed
              encryptedSets := []
              activeKeySets := []
              baseDocPresent := false }) ∧
    (∀ db2, executeDestruction db rc = .ok db2 →
      (db.status ≠ .destroying ∧ db.status ≠ .destroyed ∧ db.legalHold = false ∧
        rc = true ∧ db.retentionNotMet = false) ∧
      db2.status = .destroyed ∧ db2.encryptedSets = [] ∧ db2.activeKeySets = [] ∧
      db2.baseDocPresent = false) ∧
    ((db.status = .destroying ∨ db.status = .destroyed) →
      executeDestruction db rc = .error "Document is already destroyed or destroying") ∧
    ((db.encryptedSets.filter (fun s => s ∈ db.activeKeySets)).isEmpty = true →
      rotateKeys db = .error "No active encrypted content sets found") ∧
    (∀ r, rotateKeys db = .ok r → r.1 = db ∧ r.2 ≠ [] ∧
      r.2 = db.encryptedSets.filter (fun s => s ∈ db.activeKeySets)) := by
  refine ⟨?_, ?_, ?_, ?_, ?_⟩
  · intro hst hlh hrc hret
    unfold executeDestruction
    rw [if_neg (by rw [hst]; rintro (h | h) <;> cases h)]
    rw [hlh, hrc, hret]
    simp
  · intro db2 h
    unfold executeDestruction at h
    by_cases h1 : db.status = .destroyed ∨ db.status = .destroying
    · rw [if_pos h1] at h; cases h
    · rw [if_neg h1] at h
      by_cases h2 : db.legalHold
      · rw [if_pos h2] at h; cases h
      · rw [if_neg h2] at h
        by_cases h3 : rc = false
        · rw [if_pos h3] at h; cases h
        · rw [if_neg h3] at h
          by_cases h4 : db.retentionNotMet
          · rw [if_pos h4] at h; cases h
          · rw [if_neg h4] at h
            injection h with h
            rw [← h]
            refine ⟨⟨?_, ?_, by simpa using h2, by simpa using h3, by simpa using h4⟩,
              rfl, rfl, rfl, rfl⟩
            · intro hc; exact h1 (Or.inr hc)
            · intro hc; exact h1 (Or.inl hc)
  · intro h
    unfold executeDestruction
    rw [if_pos (by tauto)]
  · intro h
    unfold rotateKeys
    simp only [h]
    rfl
  · intro r h
    unfold rotateKeys at h
    by_cases he : (db.encryptedSets.filter (fun s => s ∈ db.activeKeySets)).isEmpty
    · simp only [he] at h; cases h
    · simp only [he] at h
      rw [Bool.not_eq_true] at he
      injection h with h
      rw [← h]
      exact ⟨rfl, by simpa [List.isEmpty_iff] using he, rfl⟩

/-- C9 witness: a concrete application of the amended theorem — an approved
document with clearance, no hold, and retention met is destroyed. -/
theorem tessera_C9_witness :
    executeDestruction
      { status := .approved, legalHold := false, retentionNotMet := false,
        encryptedSets := ["CS-A", "CS-B"], activeKeySets := ["CS-B"],
        baseDocPresent := true }
      true =
    .ok { status := .destroyed, legalHold := false, retentionNotMet := false,
          encryptedSets := [], activeKeySets := [], baseDocPresent := false } :=
  (tessera_C9_amended
    { status := .approved, legalHold := false, retentionNotMet := false,
      encryptedSets := ["CS-A", "CS-B"], activeKeySets := ["CS-B"],
      baseDocPresent := true }
    true).1 rfl rfl rfl rfl

/-- `mergeUpd` never changes a marker's positional key. -/
theorem markerPos_mergeUpd (a : Assignment) (m : PositionalMarker) :
    markerPos (mergeUpd a m) = markerPos m := by
  unfold mergeUpd
  split_ifs <;> rfl

/-- `mergeUpd` never changes a marker's sequence position. -/
theorem seq_mergeUpd (a : Assignment) (m : PositionalMarker) :
    (mergeUpd a m).sequencePosition = m.sequencePosition := by
  unfold mergeUpd
  split_ifs <;> rfl

/-- At the assignment's position, `mergeUpd` turns the membership into the
guarded append `insertIfNew`. -/
theorem membership_mergeUpd_pos (a : Assignment) (m : PositionalMarker)
    (h : markerPos m = posKey a) :
    (mergeUpd a m).contentSetMembership =
      insertIfNew m.contentSetMembership a.contentSetIdentifier := by
  unfold mergeUpd insertIfNew
  rw [if_pos h]
  split_ifs <;> rfl

/-- Away from the assignment's position, `mergeUpd` is the identity. -/
theorem mergeUpd_neg (a : Assignment) (m : PositionalMarker)
    (h : ¬ markerPos m = posKey a) : mergeUpd a m = m := by
  unfold mergeUpd
  rw [if_neg h]

/-- Membership in a guarded append. -/
theorem mem_insertIfNew (l : List String) (c x : String) :
    x ∈ insertIfNew l c ↔ x ∈ l ∨ x = c := by
  unfold insertIfNew
  split_ifs with h
  · constructor
    · exact Or.inl
    · rintro (hx | rfl)
      · exact hx
      · exact h
  · simp

/-- A guarded append preserves `Nodup`. -/
theorem insertIfNew_nodup (l : List String) (c : String) (h : l.Nodup) :
    (insertIfNew l c).Nodup := by
  unfold insertIfNew
  split_ifs with hc
  · exact h
  · simp [List.nodup_append, h, hc]

/-- Membership in a fold of guarded appends. -/
theorem mem_foldl_insertIfNew (cs : List String) (acc : List String) (x : String) :
    x ∈ cs.foldl insertIfNew acc ↔ x ∈ acc ∨ x ∈ cs := by
  induction cs generalizing acc with
  | nil => simp
  | cons c rest ih =>
    simp only [List.foldl_cons, ih, mem_insertIfNew, List.mem_cons]
    tauto

/-- A fold of guarded appends preserves `Nodup`. -/
theorem foldl_insertIfNew_nodup (cs : List String) (acc : List String)
    (h : acc.Nodup) : (cs.foldl insertIfNew acc).Nodup := by
  induction cs generalizing acc with
  | nil => exact h
  | cons c rest ih => exact ih _ (insertIfNew_nodup _ _ h)

/-- One builder iteration preserves the loop invariant, extending the
processed prefix by the assignment just consumed. -/
theorem buildStep_inv (uuid : Nat → String) (pre : List Assignment) (st : BuildState)
    (a : Assignment) (h : BuilderInv pre st) :
    BuilderInv (pre ++ [a]) (buildStep uuid st a) := by
  obtain ⟨h1, h2, h3, h4, h5, h6, h7⟩ := h
  cases hfind : st.markers.find? (fun m => markerPos m = posKey a) with
  | some existing =>
    have hexpos : markerPos existing = posKey a := by
      have := List.find?_some hfind
      simpa using this
    have hexmem : existing ∈ st.markers := List.mem_of_find?_eq_some hfind
    unfold buildStep
    rw [hfind]
    refine ⟨?_, ?_, ?_, ?_, ?_, ?_, ?_⟩
    · show (st.markers.map (mergeUpd a)).Pairwise (fun m1 m2 => markerPos m1 ≠ markerPos m2)
      rw [List.pairwise_map]
      exact h1.imp (fun hne => by rw [markerPos_mergeUpd, markerPos_mergeUpd]; exact hne)
    · intro b hb
      rcases List.mem_append.mp hb with hpre | hsing
      · obtain ⟨m, hm, hpos⟩ := h2 b hpre
        exact ⟨mergeUpd a m, List.mem_map_of_mem _ hm,
          by rw [markerPos_mergeUpd]; exact hpos⟩
      · have hba : b = a := by simpa using hsing
        subst hba
        exact ⟨mergeUpd b existing, List.mem_map_of_mem _ hexmem,
          by rw [markerPos_mergeUpd]; exact hexpos⟩
    · intro m2 hm2
      obtain ⟨m, hm, rfl⟩ := List.mem_map.mp hm2
      obtain ⟨b, hb, hpos⟩ := h3 m hm
      exact ⟨b, List.mem_append_left _ hb, by rw [markerPos_mergeUpd]; exact hpos⟩
    · intro m2 hm2
      obtain ⟨m, hm, rfl⟩ := List.mem_map.mp hm2
      rw [markerPos_mergeUpd, List.filter_append]
      by_cases hpos : markerPos m = posKey a
      · rw [membership_mergeUpd_pos a m hpos]
        have hfa : [a].filter (fun b => decide (posKey b = markerPos m)) = [a] := by
          simp [hpos.symm]
        rw [hfa, List.map_append, List.foldl_append]
        rw [h4 m hm]
        rfl
      · rw [mergeUpd_neg a m hpos]
        have hfa : [a].filter (fun b => decide (posKey b = markerPos m)) = [] := by
          simp
          intro hc
          exact hpos hc.symm
        rw [hfa, List.append_nil]
        exact h4 m hm
    · intro m2 hm2
      obtain ⟨m, hm, rfl⟩ := List.mem_map.mp hm2
      by_cases hpos : markerPos m = posKey a
      · by_cases hcs : a.contentSetIdentifier ∈ m.contentSetMembership
        · have heq : mergeUpd a m = m := by
            unfold mergeUpd
            rw [if_pos hpos, if_pos hcs]
          rw [heq]
          exact h5 m hm
        · have heq : mergeUpd a m =
              { m with
                contentSetMembership :=
                  m.contentSetMembership ++ [a.contentSetIdentifier]
                isMerged := true } := by
            unfold mergeUpd
            rw [if_pos hpos, if_neg hcs]
          rw [heq]
          have hlen : 1 ≤ m.contentSetMembership.length := by
            obtain ⟨b, hb, hpos2⟩ := h3 m hm
            have hmem : b.contentSetIdentifier ∈ m.contentSetMembership := by
              rw [h4 m hm, mem_foldl_insertIfNew]
              right
              apply List.mem_map_of_mem
              rw [List.mem_filter]
              exact ⟨hb, by simpa using hpos2⟩
            have := List.length_pos_of_mem hmem
            omega
          show true = decide (2 ≤ (m.contentSetMembership ++ [a.contentSetIdentifier]).length)
          rw [List.length_append]
          symm
          rw [decide_eq_true_eq]
          simpa using hlen
      · rw [mergeUpd_neg a m hpos]
        exact h5 m hm
    · show (st.markers.map (mergeUpd a)).map (fun m => m.sequencePosition) =
        List.range' 1 (st.markers.map (mergeUpd a)).length
      rw [List.map_map, List.length_map]
      have : st.markers.map ((fun m => m.sequencePosition) ∘ mergeUpd a) =
          st.markers.map (fun m => m.sequencePosition) := by
        apply List.map_congr_left
        intro m _
        exact seq_mergeUpd a m
      rw [this]
      exact h6
    · show st.seq = (st.markers.map (mergeUpd a)).length
      rw [List.length_map]
      exact h7
  | none =>
    have hnone : ∀ m ∈ st.markers, ¬ markerPos m = posKey a := by
      intro m hm
      have := List.find?_eq_none.mp hfind m hm
      simpa using this
    have hnmpos : markerPos (newMarker uuid st a) = posKey a := rfl
    unfold buildStep
    rw [hfind]
    refine ⟨?_, ?_, ?_, ?_, ?_, ?_, ?_⟩
    · rw [List.pairwise_append]
      refine ⟨h1, List.pairwise_singleton _ _, ?_⟩
      intro m hm m2 hm2
      have hm2' : m2 = newMarker uuid st a := by simpa using hm2
      subst hm2'
      rw [hnmpos]
      exact hnone m hm
    · intro b hb
      rcases List.mem_append.mp hb with hpre | hsing
      · obtain ⟨m, hm, hpos⟩ := h2 b hpre
        exact ⟨m, List.mem_append_left _ hm, hpos⟩
      · have hba : b = a := by simpa using hsing
        subst hba
        exact ⟨newMarker uuid st b, List.mem_append_right _ (by simp), hnmpos⟩
    · intro m hm
      rcases List.mem_append.mp hm with hold | hnew
      · obtain ⟨b, hb, hpos⟩ := h3 m hold
        exact ⟨b, List.mem_append_left _ hb, hpos⟩
      · have hm' : m = newMarker uuid st a := by simpa using hnew
        subst hm'
        exact ⟨a, List.mem_append_right _ (by simp), hnmpos.symm⟩
    · intro m hm
      rw [List.filter_append]
      rcases List.mem_append.mp hm with hold | hnew
      · have hfa : [a].filter (fun b => decide (posKey b = markerPos m)) = [] := by
          simp
          intro hc
          exact hnone m hold hc.symm
        rw [hfa, List.append_nil]
        exact h4 m hold
      · have hm' : m = newMarker uuid st a := by simpa using hnew
        subst hm'
        rw [hnmpos]
        have hprefilter : pre.filter (fun b => decide (posKey b = posKey a)) = [] := by
          rw [List.filter_eq_nil_iff]
          intro b hb
          simp only [decide_eq_true_eq]
          intro hc
          obtain ⟨m2, hm2, hpos2⟩ := h2 b hb
          exact hnone m2 hm2 (by rw [hpos2, hc])
        rw [hprefilter, List.nil_append]
        have hfa : [a].filter (fun b => decide (posKey b = posKey a)) = [a] := by
          simp
        rw [hfa]
        simp [newMarker, insertIfNew]
    · intro m hm
      rcases List.mem_append.mp hm with hold | hnew
      · exact h5 m hold
      · have hm' : m = newMarker uuid st a := by simpa using hnew
        subst hm'
        rfl
    · show (st.markers ++ [newMarker uuid st a]).map (fun m => m.sequencePosition) =
        List.range' 1 (st.markers ++ [newMarker uuid st a]).length
      rw [List.map_append, List.length_append, h6]
      simp only [List.length_singleton]
      have hcat : List.range' 1 (st.markers.length + 1) =
          List.range' 1 st.markers.length ++ [1 + 1 * st.markers.length] :=
        List.range'_concat 1 st.markers.length
      rw [hcat]
      congr 1
      show [(newMarker uuid st a).sequencePosition] = [1 + 1 * st.markers.length]
      have : (newMarker uuid st a).sequencePosition = st.seq + 1 := rfl
      rw [this, h7]
      congr 1
      omega
    · show st.seq + 1 = (st.markers ++ [newMarker uuid st a]).length
      rw [List.length_append, h7]
      rfl

/-- Folding the builder over a suffix preserves the invariant. -/
theorem buildFold_inv (uuid : Nat → String) (assignments : List Assignment) :
    ∀ (pre : List Assignment) (st : BuildState), BuilderInv pre st →
      BuilderInv (pre ++ assignments) (assignments.foldl (buildStep uuid) st) := by
  induction assignments with
  | nil => intro pre st h; simpa using h
  | cons a rest ih =>
    intro pre st h
    have hstep := buildStep_inv uuid pre st a h
    have := ih (pre ++ [a]) (buildStep uuid st a) hstep
    simpa using this

/-- The builder's result satisfies the loop invariant for the full
assignment list. -/
theorem buildMarkers_inv (uuid : Nat → String) (assignments : List Assignment) :
    BuilderInv assignments (buildMarkers uuid assignments) := by
  have hinit : BuilderInv [] ⟨[], [], 0⟩ := by
    refine ⟨List.Pairwise.nil, ?_, ?_, ?_, ?_, rfl, rfl⟩ <;> simp
  have := buildFold_inv uuid assignments [] ⟨[], [], 0⟩ hinit
  simpa [buildMarkers] using this

/-- C7: in the marker builder's output, any two assignments with identical
`(block_id, start_offset, end_offset)` map to exactly one positional marker
(no two distinct markers share a positional key, and every assignment's key
has a marker); that marker's `content_set_membership` is the deduplicated
union of the content-set identifiers assigned at its position (in
first-encounter order, duplicate-free, containing exactly those
identifiers); and `is_merged` is set exactly when the membership has 2 or
more identifiers. -/
theorem tessera_C7 (uuid : Nat → String) (assignments : List Assignment) :
    ((buildMarkers uuid assignments).markers.Pairwise
      (fun m1 m2 => markerPos m1 ≠ markerPos m2)) ∧
    (∀ a ∈ assignments, ∃ m ∈ (buildMarkers uuid assignments).markers,
      markerPos m = posKey a) ∧
    (∀ m ∈ (buildMarkers uuid assignments).markers,
      m.contentSetMembership =
        ((assignments.filter (fun a => posKey a = markerPos m)).map
          (fun a => a.contentSetIdentifier)).foldl insertIfNew [] ∧
      m.contentSetMembership.Nodup ∧
      (∀ c, c ∈ m.contentSetMembership ↔
        ∃ a ∈ assignments, posKey a = markerPos m ∧ a.contentSetIdentifier = c) ∧
      m.isMerged = decide (2 ≤ m.contentSetMembership.length)) := by
  obtain ⟨h1, h2, _, h4, h5, _, _⟩ := buildMarkers_inv uuid assignments
  refine ⟨h1, h2, ?_⟩
  intro m hm
  refine ⟨h4 m hm, ?_, ?_, h5 m hm⟩
  · rw [h4 m hm]
    exact foldl_insertIfNew_nodup _ _ List.nodup_nil
  · intro c
    rw [h4 m hm, mem_foldl_insertIfNew]
    simp only [List.not_mem_nil, false_or, List.mem_map, List.mem_filter,
      decide_eq_true_eq]
    constructor
    · rintro ⟨a, ⟨ha, hpos⟩, rfl⟩
      exact ⟨a, ha, hpos, rfl⟩
    · rintro ⟨a, ha, hpos, rfl⟩
      exact ⟨a, ⟨ha, hpos⟩, rfl⟩

/-- C7 witness: two assignments at the same position under different content
sets produce a marker at that position (cross-set overlap merges into one
marker). -/
theorem tessera_C7_witness :
    ∃ m ∈ (buildMarkers (fun n => toString n)
      [⟨"CS-CONFIDENTIAL", "b2", some 0, some 12, some "Budget", 1⟩,
       ⟨"CS-SECRET", "b2", some 0, some 12, some "Budget", 1⟩]).markers,
      markerPos m = posKey ⟨"CS-SECRET", "b2", some 0, some 12, some "Budget", 1⟩ :=
  (tessera_C7 (fun n => toString n)
    [⟨"CS-CONFIDENTIAL", "b2", some 0, some 12, some "Budget", 1⟩,
     ⟨"CS-SECRET", "b2", some 0, some 12, some "Budget", 1⟩]).2.1
    ⟨"CS-SECRET", "b2", some 0, some 12, some "Budget", 1⟩ (by decide)

/-- Characterization of the per-set eligibility test. -/
theorem setEligible_true_iff (m : PositionalMarker) (auth : List String)
    (dec : List (String × List PayloadEntry)) (s : String) :
    setEligible m auth dec s = true ↔
      s ∈ auth ∧ ∃ es, dec.lookup s = some es ∧
        ∃ e, payloadLookup es m.markerId = some e ∧
          sha512 (.str (e.content.getD "")) = m.contentHash := by
  unfold setEligible
  cases hes : dec.lookup s with
  | none => simp
  | some es =>
    cases hpl : payloadLookup es m.markerId with
    | none => simp [hpl]
    | some e => simp [hpl]

/-- The step-5 scan ends with no content exactly when no set in the scanned
list is eligible — provided the marker's hash is not the hash of the empty
string (a null-content entry matching that hash stops the scan with no
content, which is what forces the amendment of claim C1). -/
theorem scanSets_none_iff (m : PositionalMarker) (auth : List String)
    (dec : List (String × List PayloadEntry))
    (hm : m.contentHash ≠ sha512 (.str "")) :
    ∀ sets : List String,
      (scanSets m auth dec sets).1 = none ↔
        ∀ s ∈ sets, setEligible m auth dec s = false := by
  intro sets
  induction sets with
  | nil => simp [scanSets]
  | cons s rest ih =>
    simp only [scanSets]
    by_cases hcond : s ∈ auth ∧ (dec.lookup s).isSome
    · rw [if_pos hcond]
      obtain ⟨hauth, hsome⟩ := hcond
      obtain ⟨es, hes⟩ := Option.isSome_iff_exists.mp hsome
      rw [hes]
      simp only [Option.getD_some]
      cases hpl : payloadLookup es m.markerId with
      | some entry =>
        dsimp only
        by_cases hh : sha512 (.str (entry.content.getD "")) = m.contentHash
        · rw [if_pos hh]
          have hcn : entry.content ≠ none := by
            intro hc
            rw [hc] at hh
            exact hm hh.symm
          constructor
          · intro h0
            exact absurd h0 hcn
          · intro hall
            exfalso
            have h1 := hall s (List.mem_cons_self _ _)
            rw [Bool.eq_false_iff] at h1
            apply h1
            rw [setEligible_true_iff]
            exact ⟨hauth, es, hes, entry, hpl, hh⟩
        · rw [if_neg hh, ih]
          constructor
          · intro hrest s2 hs2
            rcases List.mem_cons.mp hs2 with rfl | hmem
            · rw [Bool.eq_false_iff]
              intro htrue
              rw [setEligible_true_iff] at htrue
              obtain ⟨_, es2, hes2, e2, hpl2, hh2⟩ := htrue
              rw [hes] at hes2
              injection hes2 with hes3
              subst hes3
              rw [hpl] at hpl2
              injection hpl2 with hpl3
              subst hpl3
              exact hh hh2
            · exact hrest s2 hmem
          · intro hall s2 hs2
            exact hall s2 (List.mem_cons_of_mem _ hs2)
      | none =>
        dsimp only
        rw [ih]
        constructor
        · intro hrest s2 hs2
          rcases List.mem_cons.mp hs2 with rfl | hmem
          · rw [Bool.eq_false_iff]
            intro htrue
            rw [setEligible_true_iff] at htrue
            obtain ⟨_, es2, hes2, e2, hpl2, _⟩ := htrue
            rw [hes] at hes2
            injection hes2 with hes3
            subst hes3
            rw [hpl] at hpl2
            cases hpl2
          · exact hrest s2 hmem
        · intro hall s2 hs2
          exact hall s2 (List.mem_cons_of_mem _ hs2)
    · rw [if_neg hcond, ih]
      constructor
      · intro hrest s2 hs2
        rcases List.mem_cons.mp hs2 with rfl | hmem
        · rw [Bool.eq_false_iff]
          intro htrue
          rw [setEligible_true_iff] at htrue
          obtain ⟨hauth2, es2, hes2, _⟩ := htrue
          exact hcond ⟨hauth2, by simp [hes2]⟩
        · exact hrest s2 hmem
      · intro hall s2 hs2
        exact hall s2 (List.mem_cons_of_mem _ hs2)

/-- Closed form of the step-5 scan: it stops at the first eligible set in
the scanned list (the claim's per-set condition), returning that set's
entry content and identifier, and yields `(none, none)` when no set is
eligible.  On a hash mismatch or a missing entry the loop continues, so the
result factors exactly through `find?` over `setEligible`. -/
theorem scanSets_eq (m : PositionalMarker) (auth : List String)
    (dec : List (String × List PayloadEntry)) :
    ∀ sets : List String,
      scanSets m auth dec sets =
        match sets.find? (fun s => setEligible m auth dec s) with
        | none => (none, none)
        | some s =>
          ((payloadLookup ((dec.lookup s).getD []) m.markerId).bind
            (fun e => e.content), some s) := by
  intro sets
  induction sets with
  | nil => rfl
  | cons s rest ih =>
    simp only [scanSets]
    by_cases hcond : s ∈ auth ∧ (dec.lookup s).isSome
    · rw [if_pos hcond]
      obtain ⟨hauth, hsome⟩ := hcond
      obtain ⟨es, hes⟩ := Option.isSome_iff_exists.mp hsome
      rw [hes]
      simp only [Option.getD_some]
      cases hpl : payloadLookup es m.markerId with
      | some entry =>
        dsimp only
        by_cases hh : sha512 (.str (entry.content.getD "")) = m.contentHash
        · rw [if_pos hh]
          have hel : setEligible m auth dec s = true :=
            (setEligible_true_iff m auth dec s).mpr ⟨hauth, es, hes, entry, hpl, hh⟩
          rw [List.find?_cons_of_pos _ hel]
          dsimp only
          rw [hes]
          simp only [Option.getD_some]
          rw [hpl]
          rfl
        · rw [if_neg hh]
          have hel : setEligible m auth dec s = false := by
            rw [Bool.eq_false_iff]
            intro htrue
            rw [setEligible_true_iff] at htrue
            obtain ⟨_, es2, hes2, e2, hpl2, hh2⟩ := htrue
            rw [hes] at hes2
            injection hes2 with hes3
            subst hes3
            rw [hpl] at hpl2
            injection hpl2 with hpl3
            subst hpl3
            exact hh hh2
          rw [List.find?_cons_of_neg _ (by rw [hel]; exact Bool.false_ne_true)]
          exact ih
      | none =>
        dsimp only
        have hel : setEligible m auth dec s = false := by
          rw [Bool.eq_false_iff]
          intro htrue
          rw [setEligible_true_iff] at htrue
          obtain ⟨_, es2, hes2, e2, hpl2, _⟩ := htrue
          rw [hes] at hes2
          injection hes2 with hes3
          subst hes3
          rw [hpl] at hpl2
          cases hpl2
        rw [List.find?_cons_of_neg _ (by rw [hel]; exact Bool.false_ne_true)]
        exact ih
    · rw [if_neg hcond]
      have hel : setEligible m auth dec s = false := by
        rw [Bool.eq_false_iff]
        intro htrue
        rw [setEligible_true_iff] at htrue
        obtain ⟨hauth2, es2, hes2, _⟩ := htrue
        exact hcond ⟨hauth2, by simp [hes2]⟩
      rw [List.find?_cons_of_neg _ (by rw [hel]; exact Bool.false_ne_true)]
      exact ih

/-- The rendered block at index `i` is the rendering of the marker at
index `i`. -/
theorem reconstructBlocks_getD (markers : List PositionalMarker) (auth : List String)
    (dec : List (String × List PayloadEntry)) (w : Nat) (i : Nat)
    (h : i < markers.length) :
    (reconstructBlocks markers auth dec w).getD i defaultBlock =
      { markerId := (markers.getD i defaultMarker).markerId,
        blockId := (markers.getD i defaultMarker).blockId,
        content := (scanSets (markers.getD i defaultMarker) auth dec
          (markers.getD i defaultMarker).contentSetMembership).1.getD
          (makeRedactionMarker w),
        isRedacted := (scanSets (markers.getD i defaultMarker) auth dec
          (markers.getD i defaultMarker).contentSetMembership).1.isNone,
        accessedViaSet := (scanSets (markers.getD i defaultMarker) auth dec
          (markers.getD i defaultMarker).contentSetMembership).2 } := by
  unfold reconstructBlocks
  rw [List.getD_eq_getElem _ _ (by simpa using h), List.getElem_map,
    List.getD_eq_getElem _ _ h]

/-- C1 counterexample: the claim's visibility condition can hold while the
marker renders as the redaction marker.  A whole-block assignment with
`selected_text = null` produces a marker whose `content_hash` is
`SHA-512("")` and a payload entry with null content; on reconstruction that
entry is authorized, present, and hash-matching — the claim's condition —
yet the rendered block is the redaction marker (`content !== null` fails). -/
theorem tessera_C1_counterexample :
    visibleCond
      ((buildMarkers (fun n => toString n)
        [⟨"CS-A", "b1", none, none, none, 1⟩]).markers.getD 0 defaultMarker)
      ["CS-A"]
      (buildMarkers (fun n => toString n)
        [⟨"CS-A", "b1", none, none, none, 1⟩]).payloads ∧
    ((reconstructBlocks
        (buildMarkers (fun n => toString n)
          [⟨"CS-A", "b1", none, none, none, 1⟩]).markers
        ["CS-A"]
        (buildMarkers (fun n => toString n)
          [⟨"CS-A", "b1", none, none, none, 1⟩]).payloads
        3).getD 0 defaultBlock).isRedacted = true ∧
    ((reconstructBlocks
        (buildMarkers (fun n => toString n)
          [⟨"CS-A", "b1", none, none, none, 1⟩]).markers
        ["CS-A"]
        (buildMarkers (fun n => toString n)
          [⟨"CS-A", "b1", none, none, none, 1⟩]).payloads
        3).getD 0 defaultBlock).content = makeRedactionMarker 3 := by
  decide

/-- C1 (amended): markers are rendered in list order carrying sequence
positions exactly `1..n` (hence ascending); every redacted marker renders as
the uniform redaction marker — U+2588 repeated `max 3 (min 10 w)` times,
in `[3,10]`, equal to the profile width when it is in range, and defaulting
to 3 when the profile has none.  A marker is visible (not redacted) if and
only if, at the first identifier in its `content_set_membership` satisfying
the claim's per-set condition (authorized and decrypted-verified, payload
contains the marker's id, SHA-512 of the entry's content equals the
marker's `content_hash`), that entry's content is non-null
(`visibleCondFirstMatch`).  For every marker whose `content_hash` is not
the hash of the empty string, a matching entry is necessarily non-null and
this coincides with the claim's original condition (`visibleCond`); the
difference arises only for null-content entries, which hash-match
SHA-512("") yet render the redaction marker (see the counterexample), while
an empty-string entry is non-null and renders visibly. -/
theorem tessera_C1_amended (uuid : Nat → String) (assignments : List Assignment)
    (auth : List String) (dec : List (String × List PayloadEntry))
    (profileWidth : Option Nat) :
    ((buildMarkers uuid assignments).markers.map (fun m => m.sequencePosition) =
      List.range' 1 (buildMarkers uuid assignments).markers.length ∧
     ((buildMarkers uuid assignments).markers.map
        (fun m => m.sequencePosition)).Pairwise (· < ·)) ∧
    (profileWidth = none → effectiveMarkerWidth profileWidth = 3) ∧
    (∀ w, (makeRedactionMarker w).data = List.replicate (max 3 (min 10 w)) blockChar ∧
      3 ≤ (makeRedactionMarker w).data.length ∧
      (makeRedactionMarker w).data.length ≤ 10 ∧
      (3 ≤ w → w ≤ 10 → (makeRedactionMarker w).data.length = w)) ∧
    (∀ ms : List PositionalMarker, ∀ w,
      (reconstructBlocks ms auth dec w).length = ms.length) ∧
    (∀ w i, i < (buildMarkers uuid assignments).markers.length →
      (((reconstructBlocks (buildMarkers uuid assignments).markers auth dec w).getD i
          defaultBlock).isRedacted = false ↔
        visibleCondFirstMatch
          ((buildMarkers uuid assignments).markers.getD i defaultMarker) auth dec =
          true) ∧
      (((buildMarkers uuid assignments).markers.getD i defaultMarker).contentHash ≠
          sha512 (.str "") →
        (((reconstructBlocks (buildMarkers uuid assignments).markers auth dec w).getD i
            defaultBlock).isRedacted = false ↔
          visibleCond ((buildMarkers uuid assignments).markers.getD i defaultMarker)
            auth dec)) ∧
      (((reconstructBlocks (buildMarkers uuid assignments).markers auth dec w).getD i
          defaultBlock).isRedacted = true →
        ((reconstructBlocks (buildMarkers uuid assignments).markers auth dec w).getD i
          defaultBlock).content = makeRedactionMarker w)) := by
  obtain ⟨_, _, _, _, _, h6, _⟩ := buildMarkers_inv uuid assignments
  refine ⟨⟨h6, ?_⟩, ?_, ?_, ?_, ?_⟩
  · rw [h6]
    exact List.pairwise_lt_range' 1 _
  · intro h
    rw [h]
    rfl
  · intro w
    have hlen : (makeRedactionMarker w).data.length = max 3 (min 10 w) := by
      simp [makeRedactionMarker]
    refine ⟨rfl, ?_, ?_, ?_⟩
    · rw [hlen]
      omega
    · rw [hlen]
      omega
    · intro h3 h10
      rw [hlen]
      omega
  · intro ms w
    unfold reconstructBlocks
    rw [List.length_map]
  · intro w i hi
    rw [reconstructBlocks_getD _ _ _ _ _ hi]
    refine ⟨?_, ?_, ?_⟩
    · dsimp only
      rw [Bool.eq_false_iff, ne_eq, Option.isNone_iff_eq_none, scanSets_eq]
      unfold visibleCondFirstMatch
      cases hf : ((buildMarkers uuid assignments).markers.getD i
          defaultMarker).contentSetMembership.find?
          (fun s => setEligible
            ((buildMarkers uuid assignments).markers.getD i defaultMarker)
            auth dec s) with
      | none => simp
      | some s =>
        dsimp only
        cases hpl : payloadLookup ((dec.lookup s).getD [])
            ((buildMarkers uuid assignments).markers.getD i defaultMarker).markerId with
        | none => simp
        | some e =>
          dsimp only
          cases hc : e.content <;> simp [hc]
    · intro hhash
      dsimp only
      rw [Bool.eq_false_iff, ne_eq, Option.isNone_iff_eq_none,
        scanSets_none_iff _ _ _ hhash]
      unfold visibleCond
      constructor
      · intro hnotall
        by_contra hnone
        apply hnotall
        intro s hs
        rw [Bool.eq_false_iff]
        intro htrue
        exact hnone ⟨s, hs, htrue⟩
      · rintro ⟨s, hs, htrue⟩ hall
        have := hall s hs
        rw [htrue] at this
        cases this
    · intro hred
      dsimp only at hred ⊢
      rw [Option.isNone_iff_eq_none] at hred
      rw [hred]
      rfl

/-- C1 witness: a concrete application of the amended theorem — an
authorized, verified, hash-matching entry with non-null content renders
visible (not redacted). -/
theorem tessera_C1_witness :
    ((reconstructBlocks
        (buildMarkers (fun n => toString n)
          [⟨"CS-PUBLIC", "b1", some 0, some 17, some "Public statement.", 1⟩]).markers
        ["CS-PUBLIC"]
        [("CS-PUBLIC", [⟨"1", "b1", some 0, some 17, some "Public statement.", 1⟩])]
        3).getD 0 defaultBlock).isRedacted = false :=
  (((tessera_C1_amended (fun n => toString n)
      [⟨"CS-PUBLIC", "b1", some 0, some 17, some "Public statement.", 1⟩]
      ["CS-PUBLIC"]
      [("CS-PUBLIC", [⟨"1", "b1", some 0, some 17, some "Public statement.", 1⟩])]
      (some 3)).2.2.2.2 3 0 (by decide)).1).mpr (by decide)

end Tessera
